import Mathlib

/-!
Shallow embedding of `src/demos/streamspeech2text/main.go` (package `main`
of the babel-io repository): a four-stage concurrent pipeline that pipes
stdin audio to a streaming speech-recognition session, forwards recognized
transcript alternatives to a translator, and speaks the translated text
into a fixed output file.

Each stage loop is embedded as a recursive Lean function from a list of
environment outcomes (reads from stdin, receives from the stream, results
of vendor API calls) to the trace of observable events the Go code
performs (sends, logs, fatal exits, channel forwards, file writes).
-/

namespace Babel

/-! ## Audio ingester (`startListeningStdin`, main.go lines 69-93)

The Go loop body, per iteration:
```
n, err := os.Stdin.Read(buf)
if err := stream.Send(&...AudioContent{AudioContent: buf[:n]}); err != nil {
    log.Printf("Could not send audio: %v", err)
}
if err == io.EOF {
    if err := stream.CloseSend(); err != nil {
        log.Fatalf("Could not close stream: %v", err)
    }
    return
}
if err != nil {
    log.Printf("Could not read from stdin: %v", err)
    continue
}
```
One `ReadStep` models one iteration's environment: the bytes that
`os.Stdin.Read` placed in `buf[:n]`, the error it returned, and whether
this iteration's `stream.Send` of the audio message succeeds. -/

/-- Error returned by `os.Stdin.Read`: `io.EOF` or any other error. -/
inductive ReadErr where
  | eof
  | other
  deriving DecidableEq, Repr

/-- Environment of one iteration of the ingester loop. -/
structure ReadStep where
  /-- bytes the read placed in `buf[:n]` (so `n = data.length`) -/
  data : List Nat
  /-- the error value returned by the read, `none` meaning `nil` -/
  err : Option ReadErr
  /-- whether `stream.Send` of this iteration's audio message returns `nil` -/
  sendOk : Bool
  deriving DecidableEq, Repr

/-- Observable events of the ingester loop. -/
inductive IngestEvent where
  /-- `stream.Send` of a `StreamingRecognizeRequest_AudioContent` message -/
  | sendAudio (chunk : List Nat)
  /-- `log.Printf("Could not send audio: ...")` -/
  | logSendError
  /-- `stream.CloseSend()` -/
  | closeSend
  /-- `log.Fatalf("Could not close stream: ...")`: whole-process exit -/
  | fatalCloseError
  /-- `log.Printf("Could not read from stdin: ...")` -/
  | logReadError
  /-- the `return` statement: the loop terminates normally -/
  | ret
  deriving DecidableEq, Repr

/-- Trace of `startListeningStdin` on a sequence of read outcomes.
`closeOk` is whether `stream.CloseSend()` returns `nil`. An exhausted
list with no EOF encountered models a loop still blocked on its next
read, so the trace just ends without `closeSend`/`ret`. -/
def startListeningStdin : List ReadStep → Bool → List IngestEvent
  | [], _ => []
  | s :: rest, closeOk =>
    IngestEvent.sendAudio s.data ::
      ((if s.sendOk then [] else [IngestEvent.logSendError]) ++
        match s.err with
        | some ReadErr.eof =>
          IngestEvent.closeSend ::
            (if closeOk then [IngestEvent.ret] else [IngestEvent.fatalCloseError])
        | some ReadErr.other =>
          IngestEvent.logReadError :: startListeningStdin rest closeOk
        | none => startListeningStdin rest closeOk)

/-- Whether an ingester event is the send of an audio-content message. -/
def IngestEvent.isSendAudio : IngestEvent → Bool
  | IngestEvent.sendAudio _ => true
  | _ => false

/-- The events one non-EOF iteration of the ingester loop contributes before
the loop goes on to the next read. -/
def ingestStepEvents (s : ReadStep) : List IngestEvent :=
  IngestEvent.sendAudio s.data ::
    ((if s.sendOk then [] else [IngestEvent.logSendError]) ++
      (if s.err = some ReadErr.other then [IngestEvent.logReadError] else []))

/-! ## Transcript receiver (`startReceivingStream`, main.go lines 95-120)

```
resp, err := stream.Recv()
if err == io.EOF { break }
if err != nil { log.Fatalf("Cannot stream results: %v", err) }
if err := resp.Error; err != nil {
    if err.Code == 3 || err.Code == 11 {
        log.Print("WARNING: Speech recognition request exceeded limit of 60 seconds.")
    }
    log.Fatalf("Could not recognize: %v", err)
}
for _, result := range resp.Results {
    alternatives := result.GetAlternatives()
    for _, alt := range alternatives {
        fmt.Println("Transcript alternatives: ", alt.Transcript)
        alts <- alt
    }
}
```
-/

/-- One candidate transcription. Only the transcript field is read by this
program (the proto's confidence field is never used). -/
structure SpeechRecognitionAlternative where
  transcript : String
  deriving DecidableEq, Repr

/-- One recognition result: its list of alternatives. -/
structure StreamingRecognitionResult where
  alternatives : List SpeechRecognitionAlternative
  deriving DecidableEq, Repr

/-- The error embedded in a streaming response (`resp.Error`), of which the
code inspects only the `Code` field (an int32 status code). -/
structure RpcStatus where
  code : Int
  deriving DecidableEq, Repr

/-- A streaming recognition response: an optional embedded error and the
list of results. -/
structure StreamingRecognizeResponse where
  error : Option RpcStatus
  results : List StreamingRecognitionResult
  deriving DecidableEq, Repr

/-- Outcome of one `stream.Recv()` call: end-of-stream (`io.EOF`), any
other receive error, or a response. -/
inductive RecvOutcome where
  | eof
  | recvErr
  | resp (r : StreamingRecognizeResponse)
  deriving DecidableEq, Repr

/-- Observable events of the receiver loop. -/
inductive RecvEvent where
  /-- `fmt.Println("Transcript alternatives: ", alt.Transcript)` -/
  | printTranscript (t : String)
  /-- `alts <- alt`: the alternative is forwarded on the channel -/
  | forwardAlt (a : SpeechRecognitionAlternative)
  /-- the 60-second-limit warning printed for codes 3 and 11 -/
  | warnTimeLimit
  /-- `log.Fatalf`: whole-process exit -/
  | fatal
  /-- the `break` statement: the loop terminates without killing the process -/
  | breakLoop
  deriving DecidableEq, Repr

/-- Events of the nested `for result / for alt` loops over one response's
results: print then forward, for every alternative of every result, in
order. -/
def respEvents (results : List StreamingRecognitionResult) : List RecvEvent :=
  results.flatMap fun result =>
    result.alternatives.flatMap fun alt =>
      [RecvEvent.printTranscript alt.transcript, RecvEvent.forwardAlt alt]

/-- Trace of `startReceivingStream` on a sequence of receive outcomes. An
exhausted list models a loop still blocked on its next `Recv`. -/
def startReceivingStream : List RecvOutcome → List RecvEvent
  | [] => []
  | RecvOutcome.eof :: _ => [RecvEvent.breakLoop]
  | RecvOutcome.recvErr :: _ => [RecvEvent.fatal]
  | RecvOutcome.resp r :: rest =>
    match r.error with
    | some e =>
      (if e.code = 3 ∨ e.code = 11 then [RecvEvent.warnTimeLimit] else []) ++
        [RecvEvent.fatal]
    | none => respEvents r.results ++ startReceivingStream rest

/-- The alternatives a receiver trace forwards on the `alts` channel, in
order. -/
def forwardedAlts (tr : List RecvEvent) : List SpeechRecognitionAlternative :=
  tr.filterMap fun e =>
    match e with
    | RecvEvent.forwardAlt a => some a
    | _ => none

/-- The transcripts a receiver trace prints, in order. -/
def printedTranscripts (tr : List RecvEvent) : List String :=
  tr.filterMap fun e =>
    match e with
    | RecvEvent.printTranscript t => some t
    | _ => none

/-! ## Translator (`startTranslating`, main.go lines 141-167)

Per consumed alternative:
```
text := (<-alts).Transcript
client, err := translate.NewClient(ctx)
if err != nil { log.Fatalf("Failed to create client: %v", err) }
target, err := language.Parse(code)
if err != nil { log.Fatalf("Failed to parse target language: %v", err) }
translations, err := client.Translate(ctx, []string{text}, target, nil)
if err != nil { log.Fatalf("Failed to translate text: %v", err) }
fmt.Printf("Translation: %v\n", translations[0].Text)
texts <- translations[0].Text
```
-/

/-- One translation in a translation response; the code reads its `Text`. -/
structure Translation where
  text : String
  deriving DecidableEq, Repr

/-- Which of the three fallible calls of one translator iteration failed. -/
inductive TranslateFailure where
  | clientCreate
  | parseTarget
  | translateCall
  deriving DecidableEq, Repr

/-- Environment of one translator iteration: whether `translate.NewClient`
and `language.Parse` succeed, and what `client.Translate` returns for a
given input text (an error, or the list of translations). -/
structure TranslateEnv where
  clientOk : Bool
  parseOk : Bool
  translate : String → Except Unit (List Translation)

/-- Outcome of one translator iteration. -/
inductive TranslateOutcome where
  /-- `log.Fatalf`: whole-process exit, recording which call failed -/
  | fatal (f : TranslateFailure)
  /-- the unchecked `translations[0]` index is out of bounds: runtime panic -/
  | panicked
  /-- success: the text printed and the text sent on the `texts` channel -/
  | ok (printed : String) (forwarded : String)
  deriving DecidableEq, Repr

/-- Whether a translator outcome printed and forwarded a translation. -/
def TranslateOutcome.isForward : TranslateOutcome → Bool
  | TranslateOutcome.ok _ _ => true
  | _ => false

/-- One iteration of `startTranslating` on the transcript `text` consumed
from the `alts` channel. -/
def startTranslatingStep (env : TranslateEnv) (text : String) : TranslateOutcome :=
  if env.clientOk = false then TranslateOutcome.fatal TranslateFailure.clientCreate
  else if env.parseOk = false then TranslateOutcome.fatal TranslateFailure.parseTarget
  else
    match env.translate text with
    | Except.error _ => TranslateOutcome.fatal TranslateFailure.translateCall
    | Except.ok translations =>
      match translations with
      | [] => TranslateOutcome.panicked
      | t :: _ => TranslateOutcome.ok t.text t.text

/-! ## Speaker (`startSpeaking`, main.go lines 169-213)

Per consumed text (after a once-only client creation):
```
text := <-texts
req := texttospeechpb.SynthesizeSpeechRequest{ ...Text: text... }
resp, err := client.SynthesizeSpeech(ctx, &req)
if err != nil { log.Fatal(err) }
filename := "output.mp3"
err = ioutil.WriteFile(filename, resp.AudioContent, 0644)
if err != nil { log.Fatal(err) }
fmt.Printf("Audio content written to file: %v\n", filename)
```
-/

/-- Environment of one speaker iteration: the text consumed from the
`texts` channel, what `client.SynthesizeSpeech` returns for it (an error,
or the audio bytes), and whether the file write succeeds. -/
structure SpeakStep where
  text : String
  synthResult : Except Unit (List Nat)
  writeOk : Bool

/-- Observable events of the speaker loop. -/
inductive SpeakEvent where
  /-- the `SynthesizeSpeech` request issued for a text -/
  | synthRequest (text : String)
  /-- `ioutil.WriteFile("output.mp3", bytes, 0644)` invoked with the
  returned audio bytes -/
  | writeFile (bytes : List Nat)
  /-- `fmt.Printf("Audio content written to file: ...")` -/
  | printConfirmation
  /-- `log.Fatal`: whole-process exit -/
  | fatal
  deriving DecidableEq, Repr

/-- Trace of the `startSpeaking` loop on a sequence of consumed texts with
their synthesis/write outcomes. An exhausted list models a loop still
blocked on its next channel receive. -/
def startSpeaking : List SpeakStep → List SpeakEvent
  | [] => []
  | s :: rest =>
    SpeakEvent.synthRequest s.text ::
      match s.synthResult with
      | Except.error _ => [SpeakEvent.fatal]
      | Except.ok bytes =>
        SpeakEvent.writeFile bytes ::
          (if s.writeOk then SpeakEvent.printConfirmation :: startSpeaking rest
            else [SpeakEvent.fatal])

/-- The texts for which a speaker trace issues synthesis requests, in
order. -/
def requestedTexts (tr : List SpeakEvent) : List String :=
  tr.filterMap fun e =>
    match e with
    | SpeakEvent.synthRequest t => some t
    | _ => none

/-- Contents of `output.mp3` after a speaker trace, starting from `init`
(`none` = file absent). `WriteFile` truncates and rewrites the whole file,
so each successful write replaces the contents. -/
def fileContents (init : Option (List Nat)) : List SpeakEvent → Option (List Nat)
  | [] => init
  | SpeakEvent.writeFile b :: rest => fileContents (some b) rest
  | _ :: rest => fileContents init rest

/-! ## Main routine (`main`, main.go lines 122-139)

```
go startListeningStdin(stream)
go startReceivingStream(stream, alts)
go startTranslating(alts, "pt-BR", texts)
go startSpeaking(texts, "pt-BR")
wait := make(chan interface{})
<-wait
```

A channel receive completes only when paired with a send on the same
channel. The model records, for each launched goroutine, the set of
channels it ever sends on, and lets `main`'s program counter advance past
a receive only when some goroutine sends on that channel. -/

/-- The three channels of the program: `alts`, `texts`, and `wait`. -/
inductive Chan where
  | alts
  | texts
  | wait
  deriving DecidableEq, Repr

/-- The four goroutines launched by `main`. -/
inductive Proc where
  | listener
  | receiver
  | translator
  | speaker
  deriving DecidableEq, Repr

/-- The channels each goroutine ever sends on: the receiver sends on
`alts` (line 116), the translator on `texts` (line 165); the listener and
the speaker send on no channel (the gRPC stream is not a channel). -/
def procSends : Proc → List Chan
  | Proc.listener => []
  | Proc.receiver => [Chan.alts]
  | Proc.translator => [Chan.texts]
  | Proc.speaker => []

/-- Statements of the main routine after stream setup. -/
inductive MainStmt where
  | launch (p : Proc)
  | recvChan (c : Chan)
  deriving DecidableEq, Repr

/-- The body of `main` after `setupSpeechStream`: four `go` launches and
the final blocking receive on `wait`. -/
def mainBody : List MainStmt :=
  [MainStmt.launch Proc.listener, MainStmt.launch Proc.receiver,
    MainStmt.launch Proc.translator, MainStmt.launch Proc.speaker,
    MainStmt.recvChan Chan.wait]

/-- One step of the main routine at program counter `pc`: a `go` launch
always proceeds; a channel receive proceeds only when some goroutine sends
on that channel. -/
inductive MainStep : Nat → Nat → Prop where
  | launch (pc : Nat) (p : Proc)
      (h : mainBody.get? pc = some (MainStmt.launch p)) :
      MainStep pc (pc + 1)
  | recv (pc : Nat) (c : Chan)
      (h : mainBody.get? pc = some (MainStmt.recvChan c))
      (hs : ∃ p : Proc, c ∈ procSends p) :
      MainStep pc (pc + 1)

/-- Program counters of `main` reachable from the start of its body. -/
inductive MainReachable : Nat → Prop where
  | init : MainReachable 0
  | step {pc pc' : Nat} : MainReachable pc → MainStep pc pc' → MainReachable pc'

lemma ingester_fatal_mem (reads : List ReadStep) (closeOk : Bool) :
    IngestEvent.fatalCloseError ∈ startListeningStdin reads closeOk ↔
      closeOk = false ∧ ∃ s ∈ reads, s.err = some ReadErr.eof := by
  induction reads with
  | nil => simp [startListeningStdin]
  | cons s rest ih =>
    rcases hs : s.err with _ | e
    · cases s.sendOk <;>
        simp [startListeningStdin, hs, ih, and_or_left]
    · cases e with
      | eof =>
        cases closeOk <;> cases s.sendOk <;>
          simp [startListeningStdin, hs]
      | other =>
        cases s.sendOk <;>
          simp [startListeningStdin, hs, ih, and_or_left]

lemma ingester_ret_mem (reads : List ReadStep) (closeOk : Bool) :
    IngestEvent.ret ∈ startListeningStdin reads closeOk ↔
      closeOk = true ∧ ∃ s ∈ reads, s.err = some ReadErr.eof := by
  induction reads with
  | nil => simp [startListeningStdin]
  | cons s rest ih =>
    rcases hs : s.err with _ | e
    · cases s.sendOk <;>
        simp [startListeningStdin, hs, ih, and_or_left]
    · cases e with
      | eof =>
        cases closeOk <;> cases s.sendOk <;>
          simp [startListeningStdin, hs]
      | other =>
        cases s.sendOk <;>
          simp [startListeningStdin, hs, ih, and_or_left]

lemma ingester_continue_step (s : ReadStep) (rest : List ReadStep) (closeOk : Bool)
    (h : s.err ≠ some ReadErr.eof) :
    startListeningStdin (s :: rest) closeOk =
      ingestStepEvents s ++ startListeningStdin rest closeOk := by
  rcases hs : s.err with _ | e
  · simp [startListeningStdin, ingestStepEvents, hs]
  · cases e with
    | eof => exact absurd hs h
    | other => simp [startListeningStdin, ingestStepEvents, hs]

/-- C1: For every sequence of input chunks ending in end-of-input, the audio
ingester calls `CloseSend` exactly once, after all audio sends; no audio
message is sent after it (the only event after `closeSend` is the loop's
terminal event, `ret` on success or `fatalCloseError` on close failure),
and the loop terminates. -/
theorem ingester_signals_completion_once (reads : List ReadStep) (closeOk : Bool)
    (h : ∃ s ∈ reads, s.err = some ReadErr.eof) :
    ∃ pre : List IngestEvent,
      startListeningStdin reads closeOk =
        pre ++ [IngestEvent.closeSend,
          if closeOk then IngestEvent.ret else IngestEvent.fatalCloseError] ∧
      IngestEvent.closeSend ∉ pre ∧ IngestEvent.ret ∉ pre ∧
      IngestEvent.fatalCloseError ∉ pre := by
  induction reads with
  | nil => simp at h
  | cons s rest ih =>
    by_cases he : s.err = some ReadErr.eof
    · refine ⟨IngestEvent.sendAudio s.data ::
        (if s.sendOk then [] else [IngestEvent.logSendError]), ?_, ?_, ?_, ?_⟩
      · cases closeOk <;> simp [startListeningStdin, he]
      all_goals cases s.sendOk <;> simp
    · obtain ⟨t, ht, hte⟩ := h
      rcases List.mem_cons.mp ht with rfl | htr
      · exact absurd hte he
      · obtain ⟨pre, hpre, h1, h2, h3⟩ := ih ⟨t, htr, hte⟩
        rcases hs : s.err with _ | e
        · refine ⟨IngestEvent.sendAudio s.data ::
            ((if s.sendOk then [] else [IngestEvent.logSendError]) ++ pre),
            ?_, ?_, ?_, ?_⟩
          · simp [startListeningStdin, hs, hpre]
          all_goals cases s.sendOk <;> simp [h1, h2, h3]
        · cases e with
          | eof => exact absurd hs he
          | other =>
            refine ⟨IngestEvent.sendAudio s.data ::
              ((if s.sendOk then [] else [IngestEvent.logSendError]) ++
                IngestEvent.logReadError :: pre), ?_, ?_, ?_, ?_⟩
            · simp [startListeningStdin, hs, hpre]
            all_goals cases s.sendOk <;> simp [h1, h2, h3]

/-- Witness for `ingester_signals_completion_once` at the concrete input of
one 3-byte chunk followed by a read returning end-of-input. -/
theorem ingester_signals_completion_once_witness :
    (∃ s ∈ [ReadStep.mk [1, 2, 3] none true, ReadStep.mk [] (some ReadErr.eof) true],
        s.err = some ReadErr.eof) ∧
    ∃ pre : List IngestEvent,
      startListeningStdin
          [ReadStep.mk [1, 2, 3] none true, ReadStep.mk [] (some ReadErr.eof) true] true =
        pre ++ [IngestEvent.closeSend,
          if true then IngestEvent.ret else IngestEvent.fatalCloseError] ∧
      IngestEvent.closeSend ∉ pre ∧ IngestEvent.ret ∉ pre ∧
      IngestEvent.fatalCloseError ∉ pre :=
  ⟨by decide,
    ingester_signals_completion_once
      [ReadStep.mk [1, 2, 3] none true, ReadStep.mk [] (some ReadErr.eof) true] true
      (by decide)⟩

/-- C2 counterexample: the claim says a zero-length input (first read
returns end-of-input) produces a completion signal "without ever sending an
audio-content message". In the code `stream.Send` of `buf[:n]` happens
before the EOF check, so the zero-length input does send one audio-content
message (with empty content). -/
theorem zero_input_sends_audio_counterexample :
    IngestEvent.sendAudio [] ∈
      startListeningStdin [ReadStep.mk [] (some ReadErr.eof) true] true := by
  decide

/-- C2 amended: a zero-length input results in exactly one audio-content
message being sent, carrying zero bytes, as the very first event, followed
by exactly one completion signal (`CloseSend`); no downstream alternative
arises from the ingester itself. -/
theorem zero_input_one_empty_send_then_close (sendOk closeOk : Bool) :
    (startListeningStdin [ReadStep.mk [] (some ReadErr.eof) sendOk] closeOk).countP
        (fun e => e.isSendAudio) = 1 ∧
    (startListeningStdin [ReadStep.mk [] (some ReadErr.eof) sendOk] closeOk).head? =
      some (IngestEvent.sendAudio []) ∧
    (startListeningStdin [ReadStep.mk [] (some ReadErr.eof) sendOk] closeOk).count
        IngestEvent.closeSend = 1 := by
  cases sendOk <;> cases closeOk <;> decide

/-- C5 counterexample: the claim says the audio ingester never terminates
the whole process. But when the read returns end-of-input and
`stream.CloseSend()` fails, the code calls `log.Fatalf` (line 84), which
terminates the whole process. -/
theorem ingester_fatal_counterexample :
    IngestEvent.fatalCloseError ∈
      startListeningStdin [ReadStep.mk [] (some ReadErr.eof) true] false := by
  decide

/-- C5 amended: on every read error other than end-of-input and on every
audio send error the ingester logs and continues its loop; it leaves the
loop only on end-of-input; however, if `CloseSend` then fails, it
terminates the whole process via `log.Fatalf` (it exits the loop normally
only when `CloseSend` succeeds). -/
theorem ingester_error_policy (reads : List ReadStep) (closeOk : Bool) :
    (∀ (s : ReadStep) (rest : List ReadStep), s.err ≠ some ReadErr.eof →
      startListeningStdin (s :: rest) closeOk =
        ingestStepEvents s ++ startListeningStdin rest closeOk) ∧
    (IngestEvent.fatalCloseError ∈ startListeningStdin reads closeOk ↔
      closeOk = false ∧ ∃ s ∈ reads, s.err = some ReadErr.eof) ∧
    (IngestEvent.ret ∈ startListeningStdin reads closeOk ↔
      closeOk = true ∧ ∃ s ∈ reads, s.err = some ReadErr.eof) :=
  ⟨fun s rest h => ingester_continue_step s rest closeOk h,
    ingester_fatal_mem reads closeOk, ingester_ret_mem reads closeOk⟩

/-- Witness for `ingester_error_policy` at a concrete input: a read error
step continues into an EOF step, and with a failing `CloseSend` the fatal
event is in the trace. -/
theorem ingester_error_policy_witness :
    startListeningStdin
        [ReadStep.mk [7] (some ReadErr.other) true,
          ReadStep.mk [] (some ReadErr.eof) true] false =
      ingestStepEvents (ReadStep.mk [7] (some ReadErr.other) true) ++
        startListeningStdin [ReadStep.mk [] (some ReadErr.eof) true] false ∧
    IngestEvent.fatalCloseError ∈
      startListeningStdin
        [ReadStep.mk [7] (some ReadErr.other) true,
          ReadStep.mk [] (some ReadErr.eof) true] false :=
  ⟨(ingester_error_policy
      [ReadStep.mk [7] (some ReadErr.other) true,
        ReadStep.mk [] (some ReadErr.eof) true] false).1
      (ReadStep.mk [7] (some ReadErr.other) true)
      [ReadStep.mk [] (some ReadErr.eof) true] (by decide),
    (ingester_error_policy
      [ReadStep.mk [7] (some ReadErr.other) true,
        ReadStep.mk [] (some ReadErr.eof) true] false).2.1.mpr
      ⟨rfl, by decide⟩⟩

lemma forwardedAlts_append (a b : List RecvEvent) :
    forwardedAlts (a ++ b) = forwardedAlts a ++ forwardedAlts b := by
  simp [forwardedAlts]

lemma printedTranscripts_append (a b : List RecvEvent) :
    printedTranscripts (a ++ b) = printedTranscripts a ++ printedTranscripts b := by
  simp [printedTranscripts]

lemma forwardedAlts_altEvents (alts : List SpeechRecognitionAlternative) :
    forwardedAlts (alts.flatMap fun alt =>
      [RecvEvent.printTranscript alt.transcript, RecvEvent.forwardAlt alt]) = alts := by
  induction alts with
  | nil => simp [forwardedAlts]
  | cons a rest ih => simp_all [forwardedAlts]

lemma printedTranscripts_altEvents (alts : List SpeechRecognitionAlternative) :
    printedTranscripts (alts.flatMap fun alt =>
      [RecvEvent.printTranscript alt.transcript, RecvEvent.forwardAlt alt]) =
      alts.map SpeechRecognitionAlternative.transcript := by
  induction alts with
  | nil => simp [printedTranscripts]
  | cons a rest ih => simp_all [printedTranscripts]

lemma forwardedAlts_respEvents (results : List StreamingRecognitionResult) :
    forwardedAlts (respEvents results) =
      results.flatMap StreamingRecognitionResult.alternatives := by
  induction results with
  | nil => simp [respEvents, forwardedAlts]
  | cons r rest ih =>
    simp only [respEvents, List.flatMap_cons] at *
    rw [forwardedAlts_append, forwardedAlts_altEvents, ih]

lemma printedTranscripts_respEvents (results : List StreamingRecognitionResult) :
    printedTranscripts (respEvents results) =
      (results.flatMap StreamingRecognitionResult.alternatives).map
        SpeechRecognitionAlternative.transcript := by
  induction results with
  | nil => simp [respEvents, printedTranscripts]
  | cons r rest ih =>
    simp only [respEvents, List.flatMap_cons] at *
    rw [printedTranscripts_append, printedTranscripts_altEvents, ih]
    simp

lemma respEvents_only_print_forward (results : List StreamingRecognitionResult) :
    RecvEvent.fatal ∉ respEvents results ∧
    RecvEvent.breakLoop ∉ respEvents results := by
  constructor <;> simp [respEvents, List.mem_flatMap]

/-- C3: For every recognition result containing K alternatives in a
response without an embedded error, the receiver forwards exactly those K
alternatives on the `alts` channel in order (across the results of the
response, concatenated in order), and prints exactly their transcripts in
the same order, before whatever the rest of the stream produces. -/
theorem receiver_forwards_every_alternative (r : StreamingRecognizeResponse)
    (rest : List RecvOutcome) (h : r.error = none) :
    forwardedAlts (startReceivingStream (RecvOutcome.resp r :: rest)) =
      r.results.flatMap StreamingRecognitionResult.alternatives ++
        forwardedAlts (startReceivingStream rest) ∧
    printedTranscripts (startReceivingStream (RecvOutcome.resp r :: rest)) =
      (r.results.flatMap StreamingRecognitionResult.alternatives).map
        SpeechRecognitionAlternative.transcript ++
        printedTranscripts (startReceivingStream rest) := by
  constructor
  · rw [startReceivingStream, h, forwardedAlts_append, forwardedAlts_respEvents]
  · rw [startReceivingStream, h, printedTranscripts_append,
      printedTranscripts_respEvents]

/-- Witness for `receiver_forwards_every_alternative` at a concrete
response holding one result with two alternatives. -/
theorem receiver_forwards_every_alternative_witness :
    forwardedAlts (startReceivingStream
        [RecvOutcome.resp (StreamingRecognizeResponse.mk none
          [StreamingRecognitionResult.mk
            [SpeechRecognitionAlternative.mk "ola",
              SpeechRecognitionAlternative.mk "hello"]])]) =
      [StreamingRecognitionResult.mk
        [SpeechRecognitionAlternative.mk "ola",
          SpeechRecognitionAlternative.mk "hello"]].flatMap
        StreamingRecognitionResult.alternatives ++
        forwardedAlts (startReceivingStream []) :=
  (receiver_forwards_every_alternative
    (StreamingRecognizeResponse.mk none
      [StreamingRecognitionResult.mk
        [SpeechRecognitionAlternative.mk "ola",
          SpeechRecognitionAlternative.mk "hello"]]) [] rfl).1

/-- C4 counterexample: the claim says the receiver extracts the top
alternative per result (one forwarded item per result). On a response with
one result holding two alternatives, the code forwards two items, not
one. -/
theorem receiver_top_alternative_counterexample :
    (forwardedAlts (startReceivingStream
        [RecvOutcome.resp (StreamingRecognizeResponse.mk none
          [StreamingRecognitionResult.mk
            [SpeechRecognitionAlternative.mk "a",
              SpeechRecognitionAlternative.mk "b"]])])).length = 2 ∧
    ¬(forwardedAlts (startReceivingStream
        [RecvOutcome.resp (StreamingRecognizeResponse.mk none
          [StreamingRecognitionResult.mk
            [SpeechRecognitionAlternative.mk "a",
              SpeechRecognitionAlternative.mk "b"]])])).length = 1 := by
  constructor <;> decide

/-- C4 amended: the receiver extracts every alternative of each result
(not only the top one), prints each alternative's transcript and forwards
each alternative on the channel, in order: for a response with a single
result, its events are print-then-forward for each alternative in order,
followed by the rest of the loop. -/
theorem receiver_handles_all_alternatives_per_result
    (result : StreamingRecognitionResult) (rest : List RecvOutcome) :
    startReceivingStream
        (RecvOutcome.resp (StreamingRecognizeResponse.mk none [result]) :: rest) =
      (result.alternatives.flatMap fun alt =>
        [RecvEvent.printTranscript alt.transcript, RecvEvent.forwardAlt alt]) ++
        startReceivingStream rest := by
  simp [startReceivingStream, respEvents]

/-- C6: The receiver terminates its loop without killing the process
exactly on end-of-stream (`io.EOF` gives `break`); every other receive
error is fatal to the whole process; every error embedded in a received
response is fatal (preceded by the warning print when its code is 3 or 11,
the codes the 60-second streaming limit surfaces as); and an error-free
response neither breaks the loop nor kills the process. -/
theorem receiver_termination_policy (rest : List RecvOutcome) :
    startReceivingStream (RecvOutcome.eof :: rest) = [RecvEvent.breakLoop] ∧
    startReceivingStream (RecvOutcome.recvErr :: rest) = [RecvEvent.fatal] ∧
    (∀ (r : StreamingRecognizeResponse) (e : RpcStatus), r.error = some e →
      startReceivingStream (RecvOutcome.resp r :: rest) =
        (if e.code = 3 ∨ e.code = 11 then [RecvEvent.warnTimeLimit] else []) ++
          [RecvEvent.fatal]) ∧
    (∀ r : StreamingRecognizeResponse, r.error = none →
      startReceivingStream (RecvOutcome.resp r :: rest) =
        respEvents r.results ++ startReceivingStream rest ∧
      RecvEvent.fatal ∉ respEvents r.results ∧
      RecvEvent.breakLoop ∉ respEvents r.results) := by
  refine ⟨rfl, rfl, ?_, ?_⟩
  · intro r e he
    rw [startReceivingStream, he]
  · intro r he
    exact ⟨by rw [startReceivingStream, he],
      (respEvents_only_print_forward r.results).1,
      (respEvents_only_print_forward r.results).2⟩

/-- Witness for `receiver_termination_policy`: end-of-stream breaks the
loop, and a response embedding a code-11 error warns about the 60-second
limit and then kills the process. -/
theorem receiver_termination_policy_witness :
    startReceivingStream [RecvOutcome.eof] = [RecvEvent.breakLoop] ∧
    startReceivingStream
        [RecvOutcome.resp (StreamingRecognizeResponse.mk (some (RpcStatus.mk 11)) [])] =
      (if (11 : Int) = 3 ∨ (11 : Int) = 11 then [RecvEvent.warnTimeLimit] else []) ++
        [RecvEvent.fatal] :=
  ⟨(receiver_termination_policy []).1,
    (receiver_termination_policy []).2.2.1
      (StreamingRecognizeResponse.mk (some (RpcStatus.mk 11)) [])
      (RpcStatus.mk 11) rfl⟩

/-- C7 counterexample: the claim says that when client creation,
target-language parsing and the translation call all succeed, the
translator prints and forwards the translated text. When the successful
translation call returns an empty list, the code instead hits an
out-of-bounds index on `translations[0]` (a runtime panic) and neither
prints nor forwards anything. -/
theorem translator_claim_counterexample :
    startTranslatingStep
        (TranslateEnv.mk true true fun _ => Except.ok []) "hello" =
      TranslateOutcome.panicked ∧
    (startTranslatingStep
        (TranslateEnv.mk true true fun _ => Except.ok []) "hello").isForward =
      false := by
  constructor <;> rfl

/-- C7 amended: for every alternative consumed, the translator terminates
the whole process if client creation, target-language parsing or the
translation call fails; when all three succeed and the translation
response is non-empty, it prints the first translation's text and forwards
exactly that text; a successful empty response instead panics on the
unchecked `translations[0]` index. -/
theorem translator_step_spec (env : TranslateEnv) (text : String) :
    (env.clientOk = false →
      startTranslatingStep env text =
        TranslateOutcome.fatal TranslateFailure.clientCreate) ∧
    (env.clientOk = true → env.parseOk = false →
      startTranslatingStep env text =
        TranslateOutcome.fatal TranslateFailure.parseTarget) ∧
    (∀ e : Unit, env.clientOk = true → env.parseOk = true →
      env.translate text = Except.error e →
      startTranslatingStep env text =
        TranslateOutcome.fatal TranslateFailure.translateCall) ∧
    (∀ (t : Translation) (ts : List Translation),
      env.clientOk = true → env.parseOk = true →
      env.translate text = Except.ok (t :: ts) →
      startTranslatingStep env text = TranslateOutcome.ok t.text t.text) ∧
    (env.clientOk = true → env.parseOk = true →
      env.translate text = Except.ok [] →
      startTranslatingStep env text = TranslateOutcome.panicked) := by
  refine ⟨fun h1 => ?_, fun h1 h2 => ?_, fun e h1 h2 h3 => ?_,
    fun t ts h1 h2 h3 => ?_, fun h1 h2 h3 => ?_⟩ <;>
    simp [startTranslatingStep, h1] <;> simp [h2] <;> rw [h3]

/-- Witness for `translator_step_spec`: with all calls succeeding and a
one-translation response, the step prints and forwards that translation's
text. -/
theorem translator_step_spec_witness :
    startTranslatingStep
        (TranslateEnv.mk true true fun _ => Except.ok [Translation.mk "oi"])
        "hi" =
      TranslateOutcome.ok (Translation.mk "oi").text (Translation.mk "oi").text :=
  (translator_step_spec
    (TranslateEnv.mk true true fun _ => Except.ok [Translation.mk "oi"])
    "hi").2.2.2.1 (Translation.mk "oi") [] rfl rfl rfl

/-- C10: The translator's unchecked `translations[0]` access: whenever the
successful translation response is non-empty the access is in bounds and
the iteration never panics, and for a successful response with an empty
list (all prior calls having succeeded) the access is out of bounds and
the iteration panics. -/
theorem translator_index_bounds (env : TranslateEnv) (text : String) :
    (∀ ts : List Translation, env.translate text = Except.ok ts → ts ≠ [] →
      startTranslatingStep env text ≠ TranslateOutcome.panicked) ∧
    (env.clientOk = true → env.parseOk = true →
      env.translate text = Except.ok [] →
      startTranslatingStep env text = TranslateOutcome.panicked) := by
  constructor
  · intro ts hts hne
    cases hc : env.clientOk with
    | false => simp [startTranslatingStep, hc]
    | true =>
      cases hp : env.parseOk with
      | false => simp [startTranslatingStep, hc, hp]
      | true =>
        cases ts with
        | nil => exact absurd rfl hne
        | cons t rest => simp [startTranslatingStep, hc, hp, hts]
  · intro hc hp hts
    simp [startTranslatingStep, hc, hp, hts]

/-- Witness for `translator_index_bounds`: a one-element response does not
panic; an empty response does. -/
theorem translator_index_bounds_witness :
    startTranslatingStep
        (TranslateEnv.mk true true fun _ => Except.ok [Translation.mk "x"])
        "y" ≠ TranslateOutcome.panicked ∧
    startTranslatingStep
        (TranslateEnv.mk true true fun _ => Except.ok ([] : List Translation))
        "y" = TranslateOutcome.panicked :=
  ⟨(translator_index_bounds
      (TranslateEnv.mk true true fun _ => Except.ok [Translation.mk "x"])
      "y").1 [Translation.mk "x"] rfl (by decide),
    (translator_index_bounds
      (TranslateEnv.mk true true fun _ => Except.ok ([] : List Translation))
      "y").2 rfl rfl rfl⟩

/-- C8: For every translated text consumed, the speaker issues exactly one
synthesis request (the requested texts are exactly the consumed texts, in
order), and after a sequence of successful syntheses and writes the output
file contains exactly the audio bytes of the most recent synthesis
(last-write-wins), whatever its contents were before. -/
theorem speaker_one_request_last_write_wins (steps : List SpeakStep)
    (s : SpeakStep) (b : List Nat) (init : Option (List Nat))
    (hok : ∀ t ∈ steps ++ [s], ∃ c, t.synthResult = Except.ok c)
    (hw : ∀ t ∈ steps ++ [s], t.writeOk = true)
    (hb : s.synthResult = Except.ok b) :
    requestedTexts (startSpeaking (steps ++ [s])) =
      (steps ++ [s]).map SpeakStep.text ∧
    fileContents init (startSpeaking (steps ++ [s])) = some b := by
  induction steps generalizing init with
  | nil =>
    have hws : s.writeOk = true := hw s (by simp)
    simp only [List.nil_append, startSpeaking, hb, hws, if_true]
    constructor
    · simp [requestedTexts, startSpeaking]
    · simp [fileContents, startSpeaking]
  | cons t rest ih =>
    obtain ⟨c, hc⟩ := hok t (by simp)
    have hwt : t.writeOk = true := hw t (by simp)
    have ihr := ih (some c)
      (fun u hu => hok u (List.mem_cons_of_mem t hu))
      (fun u hu => hw u (List.mem_cons_of_mem t hu))
    simp only [List.cons_append, startSpeaking, hc, hwt, if_true]
    constructor
    · simp only [requestedTexts, List.filterMap_cons] at *
      simp [ihr.1]
    · simp only [fileContents] at *
      exact ihr.2

/-- Witness for `speaker_one_request_last_write_wins`: two texts are both
requested and the file ends with the second synthesis's bytes. -/
theorem speaker_one_request_last_write_wins_witness :
    (∀ t ∈ [SpeakStep.mk "bom" (Except.ok [1]) true] ++
        [SpeakStep.mk "dia" (Except.ok [2, 3]) true],
      ∃ c, t.synthResult = Except.ok c) ∧
    requestedTexts (startSpeaking
        ([SpeakStep.mk "bom" (Except.ok [1]) true] ++
          [SpeakStep.mk "dia" (Except.ok [2, 3]) true])) =
      ([SpeakStep.mk "bom" (Except.ok [1]) true] ++
        [SpeakStep.mk "dia" (Except.ok [2, 3]) true]).map SpeakStep.text ∧
    fileContents (some [9]) (startSpeaking
        ([SpeakStep.mk "bom" (Except.ok [1]) true] ++
          [SpeakStep.mk "dia" (Except.ok [2, 3]) true])) = some [2, 3] := by
  refine ⟨?_, ?_, ?_⟩
  · intro t ht
    simp only [List.mem_append, List.mem_singleton] at ht
    rcases ht with rfl | rfl <;> exact ⟨_, rfl⟩
  · exact (speaker_one_request_last_write_wins
      [SpeakStep.mk "bom" (Except.ok [1]) true]
      (SpeakStep.mk "dia" (Except.ok [2, 3]) true) [2, 3] (some [9])
      (by intro t ht
          simp only [List.mem_append, List.mem_singleton] at ht
          rcases ht with rfl | rfl <;> exact ⟨_, rfl⟩)
      (by intro t ht
          simp only [List.mem_append, List.mem_singleton] at ht
          rcases ht with rfl | rfl <;> rfl)
      rfl).1
  · exact (speaker_one_request_last_write_wins
      [SpeakStep.mk "bom" (Except.ok [1]) true]
      (SpeakStep.mk "dia" (Except.ok [2, 3]) true) [2, 3] (some [9])
      (by intro t ht
          simp only [List.mem_append, List.mem_singleton] at ht
          rcases ht with rfl | rfl <;> exact ⟨_, rfl⟩)
      (by intro t ht
          simp only [List.mem_append, List.mem_singleton] at ht
          rcases ht with rfl | rfl <;> rfl)
      rfl).2

/-- C9: No goroutine of the program ever sends on the `wait` channel, the
main routine does reach the final blocking receive on `wait` after the
four launches, and no reachable program counter of `main` is past the end
of its body: `main` never returns normally (it only leaves via a fatal
error in a stage or external termination). -/
theorem main_blocks_forever :
    (∀ p : Proc, Chan.wait ∉ procSends p) ∧
    MainReachable (mainBody.length - 1) ∧
    (∀ pc : Nat, MainReachable pc → pc < mainBody.length) := by
  refine ⟨?_, ?_, ?_⟩
  · intro p
    cases p <;> simp [procSends]
  · exact MainReachable.step
      (MainReachable.step
        (MainReachable.step
          (MainReachable.step MainReachable.init
            (MainStep.launch 0 Proc.listener rfl))
          (MainStep.launch 1 Proc.receiver rfl))
        (MainStep.launch 2 Proc.translator rfl))
      (MainStep.launch 3 Proc.speaker rfl)
  · intro pc hpc
    have hle : ∀ q : Nat, MainReachable q → q ≤ 4 := by
      intro q hq
      induction hq with
      | init => omega
      | @step q0 q1 hr hs ih =>
        cases hs with
        | launch p h =>
          have hne : q0 ≠ 4 := by
            intro h4
            subst h4
            simp [mainBody] at h
          omega
        | recv c h hs2 =>
          exfalso
          interval_cases q0 <;> simp [mainBody] at h
          subst h
          obtain ⟨p, hp⟩ := hs2
          cases p <;> simp [procSends] at hp
    have hb := hle pc hpc
    have hlen : mainBody.length = 5 := rfl
    omega

/-- Witness for `main_blocks_forever`: the initial program counter is
strictly inside the body of `main`. -/
theorem main_blocks_forever_witness : 0 < mainBody.length :=
  main_blocks_forever.2.2 0 MainReachable.init

end Babel
